import Mathlib

/-!
Verification development for the TakamoMap core: the location-code
coordinate codec (src/utils/coordinates.py), the data loader with its
stub-sector synthesis (src/utils/data_loader.py), and the ownership
propagation cache (src/app.py).

Python strings are modelled as lists of characters (`Str`); machine
integers as `Int`; Python dict rows as records with the fields the core
reads (`id`, `location`, `owner`, `note`).  Fallible parsing
(`int(c)` raising `ValueError`) is modelled with `Option`.
-/

namespace Takamo

/-- A Python string, modelled as its list of characters. -/
abbrev Str := List Char

/-- Convenience conversion from a Lean string literal to `Str`. -/
def str (s : String) : Str := s.data

/-- ASCII model of Python `str.upper` on one character: lowercase
a–z (code points 97–122) map down by 32, everything else unchanged. -/
def upperChar (c : Char) : Char :=
  if 97 ≤ c.toNat ∧ c.toNat ≤ 122 then Char.ofNat (c.toNat - 32) else c

/-- Python `max(lo, min(hi, v))`. -/
def clamp (lo hi v : Int) : Int := max lo (min hi v)

/-- Model of Python `int(c)` on a single character: succeeds exactly on
the decimal digits 0–9, otherwise raises `ValueError` (`none`). -/
def digitToInt (c : Char) : Option Int :=
  if 48 ≤ c.toNat ∧ c.toNat ≤ 57 then some ((c.toNat : Int) - 48) else none

/-- Python `s.split('/')`: split on every slash, keeping empty pieces. -/
def splitSlash : Str → List Str
  | [] => [[]]
  | c :: cs =>
    let r := splitSlash cs
    if c = '/' then [] :: r
    else (c :: r.headD []) :: r.tail

/-- Bool test that `pre` starts `l` (used to model Python substring search). -/
def leadsWith : Str → Str → Bool
  | [], _ => true
  | _ :: _, [] => false
  | a :: as, b :: bs => a = b && leadsWith as bs

/-- Model of Python `needle in hay` on strings: contiguous substring test. -/
def substrB (needle : Str) : Str → Bool
  | [] => leadsWith needle []
  | c :: t => leadsWith needle (c :: t) || substrB needle t

/-- Result of `get_coordinates_from_sector`: the dict `{x, y, z}`. -/
structure Coords3 where
  x : Int
  y : Int
  z : Int
deriving DecidableEq, Repr

/-- Result of `get_coordinates_from_subsector`: `{x, y, z, sx, sy, sz}`. -/
structure SubCoords where
  x : Int
  y : Int
  z : Int
  sx : Int
  sy : Int
  sz : Int
deriving DecidableEq, Repr

/-- Result of `get_coordinates_from_system`. -/
structure SysCoords where
  x : Int
  y : Int
  z : Int
  sx : Int
  sy : Int
  sz : Int
  system_pos : Int
deriving DecidableEq, Repr

/-- src/utils/coordinates.py, get_coordinates_from_sector: each of the
first three characters is uppercased, `ord` minus 65, clamped to
[0,25]; empty or shorter-than-3 input returns zeros. -/
def get_coordinates_from_sector (location : Str) : Coords3 :=
  if location.length < 3 then ⟨0, 0, 0⟩
  else
    ⟨clamp 0 25 (((upperChar (location.getD 0 ' ')).toNat : Int) - 65),
     clamp 0 25 (((upperChar (location.getD 1 ' ')).toNat : Int) - 65),
     clamp 0 25 (((upperChar (location.getD 2 ' ')).toNat : Int) - 65)⟩

/-- src/utils/coordinates.py, get_coordinates_from_subsector: the three
digit characters are parsed sequentially inside one try block, so a
parse failure keeps the already-assigned (still unclamped) values and
leaves the rest at 0; the clamping to [0,9] runs only when all three
parses succeed.  Input shorter than 6 returns all zeros. -/
def get_coordinates_from_subsector (location : Str) : SubCoords :=
  if location.length < 6 then ⟨0, 0, 0, 0, 0, 0⟩
  else
    let s := get_coordinates_from_sector (location.take 3)
    let sub := (location.drop 3).take 3
    match digitToInt (sub.getD 0 ' '), digitToInt (sub.getD 1 ' '),
          digitToInt (sub.getD 2 ' ') with
    | some d0, some d1, some d2 =>
        ⟨s.x, s.y, s.z, clamp 0 9 (d0 - 1), clamp 0 9 (d1 - 1), clamp 0 9 (d2 - 1)⟩
    | some d0, some d1, none => ⟨s.x, s.y, s.z, d0 - 1, d1 - 1, 0⟩
    | some d0, none, _ => ⟨s.x, s.y, s.z, d0 - 1, 0, 0⟩
    | none, _, _ => ⟨s.x, s.y, s.z, 0, 0, 0⟩

/-- src/utils/coordinates.py, get_coordinates_from_system: character 7
parsed as the system position (0-indexed, clamped, default 0 on parse
failure), the first six characters delegated to the subsector decoder;
input shorter than 7 returns all zeros. -/
def get_coordinates_from_system (location : Str) : SysCoords :=
  if location.length < 7 then ⟨0, 0, 0, 0, 0, 0, 0⟩
  else
    let sp := match digitToInt (location.getD 6 ' ') with
      | some d => clamp 0 9 (d - 1)
      | none => 0
    let sc := get_coordinates_from_subsector (location.take 6)
    ⟨sc.x, sc.y, sc.z, sc.sx, sc.sy, sc.sz, sp⟩

/-- src/utils/coordinates.py, calculate_sector_distance, modelled up to
the final `math.sqrt`: the squared Euclidean distance between the two
decoded sector triples; an empty argument short-circuits to 0 (and
`sqrt 0 = 0.0` in the source). -/
def calculate_sector_distance_sq (sector1 sector2 : Str) : Int :=
  if sector1 = [] ∨ sector2 = [] then 0
  else
    let c1 := get_coordinates_from_sector sector1
    let c2 := get_coordinates_from_sector sector2
    (c2.x - c1.x) * (c2.x - c1.x) + (c2.y - c1.y) * (c2.y - c1.y) +
      (c2.z - c1.z) * (c2.z - c1.z)

/-- src/utils/coordinates.py, format_location: dash-join fixed-width
slices for lengths 3/6/7/8; otherwise, dash-join the '/'-split parts
when there are exactly 3 or 4 of them; otherwise return the input. -/
def format_location (location : Str) : Str :=
  if location = [] then []
  else if location.length = 3 then location
  else if location.length = 6 then
    location.take 3 ++ '-' :: location.drop 3
  else if location.length = 7 then
    location.take 3 ++ '-' :: ((location.drop 3).take 3 ++ '-' :: location.drop 6)
  else if location.length = 8 then
    location.take 3 ++ '-' :: ((location.drop 3).take 3 ++
      '-' :: ((location.drop 6).take 1 ++ '-' :: location.drop 7))
  else if location.contains '/' then
    let parts := splitSlash location
    if parts.length = 3 then
      parts.getD 0 [] ++ '-' :: (parts.getD 1 [] ++ '-' :: parts.getD 2 [])
    else if parts.length = 4 then
      parts.getD 0 [] ++ '-' :: (parts.getD 1 [] ++
        '-' :: (parts.getD 2 [] ++ '-' :: parts.getD 3 []))
    else location
  else location

/-- Re-encoding of one decoded axis value back to a letter, A=0..Z=25. -/
def encodeAxis (v : Int) : Char := Char.ofNat (v + 65).toNat

/-- Re-encoding of a decoded sector triple back to a 3-letter code. -/
def encodeSector (c : Coords3) : Str := [encodeAxis c.x, encodeAxis c.y, encodeAxis c.z]

/-- One row of a backing-store table, with the fields the core reads:
`id`, `location`, and for planets `owner`; `note` carries the stub
marker text.  Unread columns are omitted from the model. -/
structure Rec where
  id : Int := 0
  location : Str := []
  owner : Str := []
  note : Str := []
deriving DecidableEq, Repr

/-- The four row sets of the backing store.  An absent table behaves
exactly like an empty one in `DataLoader.load` (the collection stays at
its `__init__` value `[]`), so both are modelled as `[]`. -/
structure Database where
  sectors : List Rec := []
  subsectors : List Rec := []
  systems : List Rec := []
  planets : List Rec := []
deriving DecidableEq, Repr

/-- The mutable fields of a `DataLoader` instance that the claims are
about: the four collections, the `sector_codes` set (modelled as a
duplicate-free list), and whether `self.conn` holds an open
connection. -/
structure LoaderState where
  sectors : List Rec := []
  subsectors : List Rec := []
  systems : List Rec := []
  planets : List Rec := []
  sector_codes : List Str := []
  connOpen : Bool := false
deriving DecidableEq, Repr

/-- Python `set.add`: insert a code unless already present. -/
def insertCode (codes : List Str) (c : Str) : List Str :=
  if c ∈ codes then codes else codes ++ [c]

/-- src/utils/data_loader.py line 231 / 164: Python
`max([sector.get('id', 0) for sector in sectors], default=0)` — the
maximum of the id column, or 0 when the collection is empty. -/
def maxIdDefaultZero (sectors : List Rec) : Int :=
  match sectors.map Rec.id with
  | [] => 0
  | x :: xs => xs.foldl max x

/-- src/utils/data_loader.py lines 193–197: the sector code implied by
a planet location — the first '/'-split part when a slash is present,
else the first three characters. -/
def planetSectorCode (location : Str) : Str :=
  if location.contains '/' then (splitSlash location).getD 0 []
  else location.take 3

/-- src/utils/data_loader.py lines 185–227: the set of sector codes
referenced by planets, systems, and subsectors (locations of length at
least 3) but absent from `sector_codes`.  Python iterates a `set`; the
model fixes one duplicate-free enumeration of it. -/
def missing_sector_codes (st : LoaderState) : List Str :=
  let fromPlanets := st.planets.filterMap fun p =>
    if 3 ≤ p.location.length then
      let sc := planetSectorCode p.location
      if sc ≠ [] ∧ sc ∉ st.sector_codes then some sc else none
    else none
  let fromSystems := st.systems.filterMap fun s =>
    if 3 ≤ s.location.length then
      let sc := s.location.take 3
      if sc ≠ [] ∧ sc ∉ st.sector_codes then some sc else none
    else none
  let fromSubsectors := st.subsectors.filterMap fun s =>
    if 3 ≤ s.location.length then
      let sc := s.location.take 3
      if sc ≠ [] ∧ sc ∉ st.sector_codes then some sc else none
    else none
  (fromPlanets ++ fromSystems ++ fromSubsectors).dedup

/-- A synthesized stub sector record (timestamp field omitted: no claim
reads it). -/
def mkStub (nid : Int) (code : Str) (note : Str) : Rec :=
  { id := nid, location := code, owner := [], note := note }

/-- Note text of stubs from the bulk pass. -/
def autoNote : Str := str "Automatically generated stub sector"

/-- Note text of stubs from _create_specific_sector. -/
def manualNote : Str := str "Manually created stub sector"

/-- src/utils/data_loader.py lines 234–246: the creation loop of
_create_stub_sectors — append one stub per missing code, ids assigned
from `nid` upward. -/
def addStubs : LoaderState → List Str → Int → LoaderState
  | st, [], _ => st
  | st, c :: cs, nid =>
      addStubs
        { st with
          sectors := st.sectors ++ [mkStub nid c autoNote],
          sector_codes := insertCode st.sector_codes c }
        cs (nid + 1)

/-- src/utils/data_loader.py, DataLoader._create_stub_sectors. -/
def create_stub_sectors (st : LoaderState) : LoaderState :=
  addStubs st (missing_sector_codes st) (maxIdDefaultZero st.sectors + 1)

/-- src/utils/data_loader.py, DataLoader._create_specific_sector: skip
when the code is already in `sector_codes`, else append one stub with
id `max + 1`. -/
def create_specific_sector (st : LoaderState) (code : Str) : LoaderState :=
  if code ∈ st.sector_codes then st
  else
    { st with
      sectors := st.sectors ++ [mkStub (maxIdDefaultZero st.sectors + 1) code manualNote],
      sector_codes := insertCode st.sector_codes code }

/-- The loader state right after the four _load_* calls of a fresh
load: collections copied from the store, `sector_codes` the set of
non-empty sector locations, connection open. -/
def initState (db : Database) : LoaderState :=
  { sectors := db.sectors,
    subsectors := db.subsectors,
    systems := db.systems,
    planets := db.planets,
    sector_codes := ((db.sectors.filter fun r => r.location ≠ []).map Rec.location).dedup,
    connOpen := true }

/-- Location code of the sector force-created at the end of load. -/
def anmCode : Str := str "ANM"

/-- src/utils/data_loader.py, DataLoader.load on a fresh instance.
`connectOk` is whether `sqlite3.connect` succeeds — the only statement
in the try block whose exception reaches the outer handler (every
helper catches its own); on that failure path the handler resets the
four collections to `[]` and returns normally, `self.conn` still
`None`.  On success: load tables, run the stub pass, then force-create
the ANM sector when no loaded or stub sector carries that location. -/
def DataLoader.load (connectOk : Bool) (db : Database) : LoaderState :=
  if connectOk then
    let st1 := create_stub_sectors (initState db)
    if st1.sectors.any fun r => r.location = anmCode then st1
    else create_specific_sector st1 anmCode
  else
    { sectors := [], subsectors := [], systems := [], planets := [],
      sector_codes := [], connOpen := false }

/-- src/utils/data_loader.py, DataLoader.close: drop the connection. -/
def DataLoader.close (st : LoaderState) : LoaderState := { st with connOpen := false }

/-- src/app.py line 230: the ownership marker, matched case-insensitively. -/
def wyvernMarker : Str := str "WYVERN SUPREMACY"

/-- Python `"WYVERN SUPREMACY" in owner.upper()`. -/
def containsMarker (owner : Str) : Bool := substrB wyvernMarker (owner.map upperChar)

/-- src/app.py lines 250–261: the '/'-format codes added for one
matching planet — first part, first two parts joined, first three
parts joined (`parts` of a split is never empty, so the length-1 guard
always passes). -/
def slashCodes (location : Str) : List Str :=
  let parts := splitSlash location
  [parts.getD 0 []] ++
    (if 2 ≤ parts.length then [parts.getD 0 [] ++ parts.getD 1 []] else []) ++
    (if 3 ≤ parts.length then
      [parts.getD 0 [] ++ parts.getD 1 [] ++ parts.getD 2 []] else [])

/-- src/app.py lines 223–261: the codes one planet contributes to the
ownership cache.  Note the nesting of the source's length tests: the
`>= 6` test sits inside the `>= 7` branch and the `>= 3` test inside
the `>= 6` branch, exactly as in the source. -/
def wyvernCodesOfPlanet (p : Rec) : List Str :=
  if p.owner ≠ [] ∧ containsMarker p.owner ∧ p.location ≠ [] then
    [p.location] ++
      (if 7 ≤ p.location.length then
        [p.location.take 7] ++
          (if 6 ≤ p.location.length then
            [p.location.take 6] ++
              (if 3 ≤ p.location.length then [p.location.take 3] else [])
          else [])
      else []) ++
      (if p.location.contains '/' then slashCodes p.location else [])
  else []

/-- src/app.py, TakamoViewerApp.build_wyvern_locations_cache: the union
over all planets (the Python set modelled by a list, membership being
what matters). -/
def build_wyvern_locations_cache (planets : List Rec) : List Str :=
  planets.flatMap wyvernCodesOfPlanet

/-- src/app.py, TakamoViewerApp.is_wyvern_location: membership test,
false on empty input. -/
def is_wyvern_location (cache : List Str) (code : Str) : Bool :=
  if code = [] then false else code ∈ cache

/-- The stub records appended by the creation loop, in order. -/
def stubsList : List Str → Int → List Rec
  | [], _ => []
  | c :: cs, nid => mkStub nid c autoNote :: stubsList cs (nid + 1)

/-- Soundness of the `sector_codes` set: every tracked code is the
location of some record in the sectors collection. -/
def codesSound (st : LoaderState) : Prop :=
  ∀ c ∈ st.sector_codes, ∃ r ∈ st.sectors, r.location = c

/-! ### Helper lemmas -/

theorem digitToInt_bounds {c : Char} {d : Int} (h : digitToInt c = some d) :
    0 ≤ d ∧ d ≤ 9 := by
  unfold digitToInt at h
  split at h
  · rename_i hc
    injection h with h
    omega
  · exact absurd h (by simp)

theorem clamp_lo_le {lo hi v : Int} : lo ≤ clamp lo hi v := le_max_left _ _

theorem clamp_le_of_le {lo hi v b : Int} (hlo : lo ≤ b) (hv : v ≤ b) :
    clamp lo hi v ≤ b :=
  max_le hlo (le_trans (min_le_right _ _) hv)

theorem clamp_le_hi {lo hi v : Int} (h : lo ≤ hi) : clamp lo hi v ≤ hi :=
  max_le h (min_le_left _ _)

theorem clamp_eq_of_bounds {lo hi v : Int} (h1 : lo ≤ v) (h2 : v ≤ hi) :
    clamp lo hi v = v := by
  unfold clamp
  rw [min_eq_right h2, max_eq_right h1]

theorem upperChar_eq_self_of_upper {c : Char} (_h1 : 'A' ≤ c) (h2 : c ≤ 'Z') :
    upperChar c = c := by
  have hn2 : c.toNat ≤ 90 := h2
  unfold upperChar
  rw [if_neg]
  omega

theorem decode_encode_axis {c : Char} (h1 : 'A' ≤ c) (h2 : c ≤ 'Z') :
    encodeAxis (clamp 0 25 (((upperChar c).toNat : Int) - 65)) = c := by
  have hn1 : 65 ≤ c.toNat := h1
  have hn2 : c.toNat ≤ 90 := h2
  rw [upperChar_eq_self_of_upper h1 h2]
  rw [clamp_eq_of_bounds (by omega) (by omega)]
  unfold encodeAxis
  have hv : ((c.toNat : Int) - 65 + 65).toNat = c.toNat := by omega
  rw [hv, Char.ofNat_toNat]

/-! ### Claim theorems: coordinate codec -/

/-- C5: for every valid 3-letter sector code (characters in A–Z),
decoding with get_coordinates_from_sector and re-encoding each axis as
A=0..Z=25 yields the original code. -/
theorem sector_decode_encode_roundtrip (s : Str) (hlen : s.length = 3)
    (hchars : ∀ c ∈ s, 'A' ≤ c ∧ c ≤ 'Z') :
    encodeSector (get_coordinates_from_sector s) = s := by
  match s, hlen with
  | [a, b, c], _ =>
    have ha := hchars a (by simp)
    have hb := hchars b (by simp)
    have hc := hchars c (by simp)
    unfold get_coordinates_from_sector
    rw [if_neg (by simp)]
    unfold encodeSector
    simp only [List.getD, List.get?_cons_zero, List.get?_cons_succ,
      Option.getD_some]
    rw [decode_encode_axis ha.1 ha.2, decode_encode_axis hb.1 hb.2,
      decode_encode_axis hc.1 hc.2]

/-- Witness for C5, at the concrete sector code MMM. -/
theorem sector_decode_encode_roundtrip_witness :
    encodeSector (get_coordinates_from_sector (str "MMM")) = str "MMM" :=
  sector_decode_encode_roundtrip (str "MMM") (by decide) (by decide)

/-- C6 counterexample: the input "AAA0X1" parses its first digit
character '0' to -1, then the parse of 'X' raises, skipping the
clamping, so the returned subsector offset sx is -1, outside [0, 8]
(and not the 0 that a non-digit group is claimed to yield). -/
theorem subsector_offset_out_of_range_cex :
    (get_coordinates_from_subsector (str "AAA0X1")).sx = -1 ∧
      ¬(0 ≤ (get_coordinates_from_subsector (str "AAA0X1")).sx) := by decide

/-- C6 as amended: subsector offsets always lie in [-1, 8] (the value
-1 arises when a leading '0' parses and a later character fails to
parse, skipping both the default and the clamp); system_pos always
lies in [0, 8]; "MMM222" decodes to sector (12,12,12) with offsets
(1,1,1); and partial parses keep earlier unclamped values, as "AAA5X1"
yielding sx = 4 shows. -/
theorem subsector_offsets_bounds :
    (∀ s : Str,
      (-1 ≤ (get_coordinates_from_subsector s).sx ∧ (get_coordinates_from_subsector s).sx ≤ 8) ∧
      (-1 ≤ (get_coordinates_from_subsector s).sy ∧ (get_coordinates_from_subsector s).sy ≤ 8) ∧
      (-1 ≤ (get_coordinates_from_subsector s).sz ∧ (get_coordinates_from_subsector s).sz ≤ 8)) ∧
    (∀ s : Str, 0 ≤ (get_coordinates_from_system s).system_pos ∧
      (get_coordinates_from_system s).system_pos ≤ 8) ∧
    get_coordinates_from_subsector (str "MMM222") = ⟨12, 12, 12, 1, 1, 1⟩ ∧
    get_coordinates_from_subsector (str "AAA5X1") = ⟨0, 0, 0, 4, 0, 0⟩ := by
  refine ⟨fun s => ?_, fun s => ?_, by decide, by decide⟩
  · unfold get_coordinates_from_subsector
    split
    · norm_num
    · rcases h0 : digitToInt (((s.drop 3).take 3).getD 0 ' ') with _ | d0
      · simp only [h0]
        norm_num
      · rcases h1 : digitToInt (((s.drop 3).take 3).getD 1 ' ') with _ | d1
        · have b0 := digitToInt_bounds h0
          simp only [h0, h1]
          omega
        · rcases h2 : digitToInt (((s.drop 3).take 3).getD 2 ' ') with _ | d2
          · have b0 := digitToInt_bounds h0
            have b1 := digitToInt_bounds h1
            simp only [h0, h1, h2]
            omega
          · have b0 := digitToInt_bounds h0
            have b1 := digitToInt_bounds h1
            have b2 := digitToInt_bounds h2
            simp only [h0, h1, h2]
            refine ⟨⟨le_trans (by norm_num) clamp_lo_le, clamp_le_of_le (by norm_num) (by omega)⟩,
              ⟨le_trans (by norm_num) clamp_lo_le, clamp_le_of_le (by norm_num) (by omega)⟩,
              le_trans (by norm_num) clamp_lo_le, clamp_le_of_le (by norm_num) (by omega)⟩
  · unfold get_coordinates_from_system
    split
    · norm_num
    · rcases h : digitToInt (s.getD 6 ' ') with _ | d <;> simp only [h]
      · norm_num
      · have := digitToInt_bounds h
        exact ⟨clamp_lo_le, clamp_le_of_le (by norm_num) (by omega)⟩

/-- C7 counterexample: the codec functions are all total, but on the
malformed input "BBB0X1" the subsector decoder does not return its
documented zeroed default: the leading '0' parses to -1 and the failed
parse of 'X' skips both the defaulting and the clamp, so sx = -1 is
returned. -/
theorem codec_default_value_cex :
    (get_coordinates_from_subsector (str "BBB0X1")).sx = -1 ∧
      (get_coordinates_from_subsector (str "BBB0X1")).sx ≠ 0 := by decide

/-- C7 as amended: every codec function is total (it is a Lean
function, every branch returns), sector components always lie in
[0, 25], empty or too-short input yields the zeroed defaults, an empty
argument makes the distance 0 (the source then takes sqrt 0 = 0.0),
and format_location of the empty string is the empty string; but a
partially parsed digit group may return offset -1 instead of the
documented 0. -/
theorem codec_total_and_defaults :
    (∀ s : Str, s.length < 3 → get_coordinates_from_sector s = ⟨0, 0, 0⟩) ∧
    (∀ s : Str,
      (0 ≤ (get_coordinates_from_sector s).x ∧ (get_coordinates_from_sector s).x ≤ 25) ∧
      (0 ≤ (get_coordinates_from_sector s).y ∧ (get_coordinates_from_sector s).y ≤ 25) ∧
      (0 ≤ (get_coordinates_from_sector s).z ∧ (get_coordinates_from_sector s).z ≤ 25)) ∧
    (∀ s : Str, s.length < 6 → get_coordinates_from_subsector s = ⟨0, 0, 0, 0, 0, 0⟩) ∧
    (∀ s : Str, s.length < 7 → get_coordinates_from_system s = ⟨0, 0, 0, 0, 0, 0, 0⟩) ∧
    (∀ s t : Str, s = [] ∨ t = [] → calculate_sector_distance_sq s t = 0) ∧
    format_location [] = [] := by
  refine ⟨fun s h => ?_, fun s => ?_, fun s h => ?_, fun s h => ?_, fun s t h => ?_, by decide⟩
  · unfold get_coordinates_from_sector
    rw [if_pos h]
  · unfold get_coordinates_from_sector
    split
    · norm_num
    · exact ⟨⟨clamp_lo_le, clamp_le_hi (by norm_num)⟩,
        ⟨clamp_lo_le, clamp_le_hi (by norm_num)⟩,
        clamp_lo_le, clamp_le_hi (by norm_num)⟩
  · unfold get_coordinates_from_subsector
    rw [if_pos h]
  · unfold get_coordinates_from_system
    rw [if_pos h]
  · unfold calculate_sector_distance_sq
    rw [if_pos h]

/-- Witness for C7 as amended, at concrete short and empty inputs. -/
theorem codec_total_and_defaults_witness :
    get_coordinates_from_sector (str "AB") = ⟨0, 0, 0⟩ ∧
    get_coordinates_from_subsector (str "MMM22") = ⟨0, 0, 0, 0, 0, 0⟩ ∧
    get_coordinates_from_system (str "MMM222") = ⟨0, 0, 0, 0, 0, 0, 0⟩ ∧
    calculate_sector_distance_sq [] (str "MMM") = 0 :=
  ⟨codec_total_and_defaults.1 (str "AB") (by decide),
   codec_total_and_defaults.2.2.1 (str "MMM22") (by decide),
   codec_total_and_defaults.2.2.2.1 (str "MMM222") (by decide),
   codec_total_and_defaults.2.2.2.2.1 [] (str "MMM") (Or.inl rfl)⟩

/-- C10: strings of length exactly 6, 7, or 8 are formatted by
fixed-width slicing even when they contain '/'; the '/'-split branch
is reachable only for other lengths; and a string matching neither
form (wrong length and not 3 or 4 slash-parts) is returned
unchanged. -/
theorem format_location_fixed_width_precedence :
    (∀ s : Str, s.length = 6 → format_location s = s.take 3 ++ '-' :: s.drop 3) ∧
    (∀ s : Str, s.length = 7 →
      format_location s = s.take 3 ++ '-' :: ((s.drop 3).take 3 ++ '-' :: s.drop 6)) ∧
    (∀ s : Str, s.length = 8 →
      format_location s = s.take 3 ++ '-' :: ((s.drop 3).take 3 ++
        '-' :: ((s.drop 6).take 1 ++ '-' :: s.drop 7))) ∧
    (∀ s : Str, s.length ≠ 3 → s.length ≠ 6 → s.length ≠ 7 → s.length ≠ 8 →
      s.contains '/' = true → (splitSlash s).length ≠ 3 → (splitSlash s).length ≠ 4 →
      format_location s = s) ∧
    (∀ s : Str, s.length ≠ 3 → s.length ≠ 6 → s.length ≠ 7 → s.length ≠ 8 →
      s.contains '/' = false → format_location s = s) := by
  refine ⟨fun s h => ?_, fun s h => ?_, fun s h => ?_,
    fun s h3 h6 h7 h8 hsl hp3 hp4 => ?_, fun s h3 h6 h7 h8 hsl => ?_⟩
  · unfold format_location
    rw [if_neg (by rintro rfl; simp at h), if_neg (by omega), if_pos h]
  · unfold format_location
    rw [if_neg (by rintro rfl; simp at h), if_neg (by omega), if_neg (by omega), if_pos h]
  · unfold format_location
    rw [if_neg (by rintro rfl; simp at h), if_neg (by omega), if_neg (by omega),
      if_neg (by omega), if_pos h]
  · unfold format_location
    by_cases he : s = []
    · rw [if_pos he, he]
    · rw [if_neg he, if_neg h3, if_neg h6, if_neg h7, if_neg h8, if_pos hsl]
      simp only
      rw [if_neg hp3, if_neg hp4]
  · unfold format_location
    by_cases he : s = []
    · rw [if_pos he, he]
    · rw [if_neg he, if_neg h3, if_neg h6, if_neg h7, if_neg h8,
        if_neg (by simpa using hsl)]

/-- Witness for C10: a 6-character string containing '/' is still
sliced fixed-width; a wrong-length string with five slash-parts and a
wrong-length slash-free string are returned unchanged. -/
theorem format_location_fixed_width_precedence_witness :
    format_location (str "MM/222") = str "MM/-222" ∧
    format_location (str "A/B/C/D/E") = str "A/B/C/D/E" ∧
    format_location (str "ABCDE") = str "ABCDE" :=
  ⟨by rw [format_location_fixed_width_precedence.1 (str "MM/222") (by decide)]; decide,
   by rw [format_location_fixed_width_precedence.2.2.2.1 (str "A/B/C/D/E")
      (by decide) (by decide) (by decide) (by decide) (by decide) (by decide) (by decide)],
   by rw [format_location_fixed_width_precedence.2.2.2.2 (str "ABCDE")
      (by decide) (by decide) (by decide) (by decide) (by decide)]⟩

/-! ### Loader lemmas -/

theorem mem_insertCode_self {codes : List Str} {c : Str} : c ∈ insertCode codes c := by
  unfold insertCode
  split
  · assumption
  · simp

theorem mem_insertCode_of_mem {codes : List Str} {a c : Str} (h : a ∈ codes) :
    a ∈ insertCode codes c := by
  unfold insertCode
  split
  · exact h
  · simp [h]

theorem mem_of_mem_insertCode {codes : List Str} {a c : Str}
    (h : a ∈ insertCode codes c) : a ∈ codes ∨ a = c := by
  unfold insertCode at h
  split at h
  · exact Or.inl h
  · simpa using h

theorem addStubs_subsectors (st : LoaderState) (l : List Str) (n : Int) :
    (addStubs st l n).subsectors = st.subsectors := by
  induction l generalizing st n with
  | nil => rfl
  | cons c cs ih => simpa [addStubs] using ih _ (n + 1)

theorem addStubs_systems (st : LoaderState) (l : List Str) (n : Int) :
    (addStubs st l n).systems = st.systems := by
  induction l generalizing st n with
  | nil => rfl
  | cons c cs ih => simpa [addStubs] using ih _ (n + 1)

theorem addStubs_planets (st : LoaderState) (l : List Str) (n : Int) :
    (addStubs st l n).planets = st.planets := by
  induction l generalizing st n with
  | nil => rfl
  | cons c cs ih => simpa [addStubs] using ih _ (n + 1)

theorem addStubs_connOpen (st : LoaderState) (l : List Str) (n : Int) :
    (addStubs st l n).connOpen = st.connOpen := by
  induction l generalizing st n with
  | nil => rfl
  | cons c cs ih => simpa [addStubs] using ih _ (n + 1)

theorem addStubs_sectors (st : LoaderState) (l : List Str) (n : Int) :
    (addStubs st l n).sectors = st.sectors ++ stubsList l n := by
  induction l generalizing st n with
  | nil => simp [addStubs, stubsList]
  | cons c cs ih =>
    simp only [addStubs, stubsList]
    rw [ih]
    simp

theorem addStubs_codes_mono {st : LoaderState} {a : Str} (l : List Str) (n : Int)
    (h : a ∈ st.sector_codes) : a ∈ (addStubs st l n).sector_codes := by
  induction l generalizing st n with
  | nil => exact h
  | cons c cs ih => exact @ih _ (n + 1) (mem_insertCode_of_mem h)

theorem addStubs_codes_of_mem {st : LoaderState} {c : Str} {l : List Str} (n : Int)
    (h : c ∈ l) : c ∈ (addStubs st l n).sector_codes := by
  induction l generalizing st n with
  | nil => cases h
  | cons d ds ih =>
    rcases List.mem_cons.mp h with rfl | hmem
    · exact addStubs_codes_mono ds (n + 1) mem_insertCode_self
    · exact ih (n + 1) hmem

theorem addStubs_sound {st : LoaderState} (l : List Str) (n : Int)
    (h : codesSound st) : codesSound (addStubs st l n) := by
  induction l generalizing st n with
  | nil => exact h
  | cons c cs ih =>
    refine ih (n + 1) ?_
    intro a ha
    rcases mem_of_mem_insertCode ha with ha' | rfl
    · obtain ⟨r, hr, hloc⟩ := h a ha'
      exact ⟨r, List.mem_append_left _ hr, hloc⟩
    · exact ⟨mkStub n a autoNote, List.mem_append_right _ (by simp), rfl⟩

theorem create_specific_sound {st : LoaderState} {code : Str} (h : codesSound st) :
    codesSound (create_specific_sector st code) := by
  unfold create_specific_sector
  split
  · exact h
  · intro a ha
    rcases mem_of_mem_insertCode ha with ha' | rfl
    · obtain ⟨r, hr, hloc⟩ := h a ha'
      exact ⟨r, List.mem_append_left _ hr, hloc⟩
    · exact ⟨mkStub (maxIdDefaultZero st.sectors + 1) a manualNote,
        List.mem_append_right _ (by simp), rfl⟩

theorem create_specific_codes_mono {st : LoaderState} {a code : Str}
    (h : a ∈ st.sector_codes) : a ∈ (create_specific_sector st code).sector_codes := by
  unfold create_specific_sector
  split
  · exact h
  · exact mem_insertCode_of_mem h

theorem create_specific_collections (st : LoaderState) (code : Str) :
    (create_specific_sector st code).subsectors = st.subsectors ∧
    (create_specific_sector st code).systems = st.systems ∧
    (create_specific_sector st code).planets = st.planets ∧
    (create_specific_sector st code).connOpen = st.connOpen := by
  unfold create_specific_sector
  split <;> exact ⟨rfl, rfl, rfl, rfl⟩

theorem initState_sound (db : Database) : codesSound (initState db) := by
  intro c hc
  simp only [initState, List.mem_dedup, List.mem_map] at hc
  obtain ⟨r, hr, rfl⟩ := hc
  exact ⟨r, List.mem_filter.mp hr |>.1, rfl⟩

theorem load_true_sound (db : Database) : codesSound (DataLoader.load true db) := by
  unfold DataLoader.load create_stub_sectors
  simp only [if_pos]
  split
  · exact addStubs_sound _ _ (initState_sound db)
  · exact create_specific_sound (addStubs_sound _ _ (initState_sound db))

theorem load_true_collections (db : Database) :
    (DataLoader.load true db).subsectors = db.subsectors ∧
    (DataLoader.load true db).systems = db.systems ∧
    (DataLoader.load true db).planets = db.planets := by
  unfold DataLoader.load create_stub_sectors
  simp only [if_pos]
  split
  · exact ⟨addStubs_subsectors _ _ _, addStubs_systems _ _ _, addStubs_planets _ _ _⟩
  · obtain ⟨h1, h2, h3, _⟩ := create_specific_collections
      (addStubs (initState db) (missing_sector_codes (initState db))
        (maxIdDefaultZero (initState db).sectors + 1)) anmCode
    rw [h1, h2, h3]
    exact ⟨addStubs_subsectors _ _ _, addStubs_systems _ _ _, addStubs_planets _ _ _⟩

/-! ### Claim theorems: loader -/

/-- C8 counterexample: load() has no close on any path; on a
successful load of an empty store the loader still holds the
connection open after load() returns. -/
theorem load_leaves_connection_open_cex :
    (DataLoader.load true {}).connOpen = true := by decide

/-- C8 as amended: the connection opened by a successful load() stays
held after load() returns (later query methods use it); the
caught-failure path never holds one (connect raised before assignment);
it is released only by the explicit close(), after which it is no
longer held. -/
theorem connection_lifecycle :
    (∀ db : Database, (DataLoader.load true db).connOpen = true) ∧
    (∀ db : Database, (DataLoader.load false db).connOpen = false) ∧
    (∀ st : LoaderState, (DataLoader.close st).connOpen = false) := by
  refine ⟨fun db => ?_, fun db => rfl, fun st => rfl⟩
  unfold DataLoader.load create_stub_sectors
  simp only [if_pos]
  split
  · rw [addStubs_connOpen]
    rfl
  · obtain ⟨_, _, _, h4⟩ := create_specific_collections
      (addStubs (initState db) (missing_sector_codes (initState db))
        (maxIdDefaultZero (initState db).sectors + 1)) anmCode
    rw [h4, addStubs_connOpen]
    rfl

/-- C9 counterexample: when the backing-store connection fails, the
outer except handler resets the collections to empty and load()
returns normally — without raising and without an ANM sector. -/
theorem anm_missing_on_failure_path_cex :
    ¬∃ r ∈ (DataLoader.load false {}).sectors, r.location = anmCode := by decide

/-- C9 as amended: after every load() whose backing-store connection
succeeds, the sectors collection contains a record with location
"ANM" — force-created when neither the loaded data nor the stub pass
produced one; on the caught connection-failure path the collections
are left empty instead. -/
theorem anm_sector_always_present (db : Database) :
    ∃ r ∈ (DataLoader.load true db).sectors, r.location = anmCode := by
  unfold DataLoader.load create_stub_sectors
  simp only [if_pos]
  split
  · rename_i hany
    obtain ⟨r, hr, hloc⟩ := List.any_eq_true.mp hany
    exact ⟨r, hr, by simpa using hloc⟩
  · rename_i hany
    have hnotin : anmCode ∉ (addStubs (initState db) (missing_sector_codes (initState db))
        (maxIdDefaultZero (initState db).sectors + 1)).sector_codes := by
      intro hin
      obtain ⟨r, hr, hloc⟩ :=
        addStubs_sound _ _ (initState_sound db) anmCode hin
      exact hany (List.any_eq_true.mpr ⟨r, hr, by simpa using hloc⟩)
    unfold create_specific_sector
    rw [if_neg hnotin]
    exact ⟨_, List.mem_append_right _ (List.mem_singleton_self _), rfl⟩

theorem take_ne_nil_of_three_le {l : Str} (h : 3 ≤ l.length) : l.take 3 ≠ [] := by
  cases l with
  | nil => simp at h
  | cons a t => simp [List.take]

theorem stub_pass_covers_subsector {st : LoaderState} {r : Rec} (hr : r ∈ st.subsectors)
    (hl : 3 ≤ r.location.length) :
    r.location.take 3 ∈ (create_stub_sectors st).sector_codes := by
  by_cases hin : r.location.take 3 ∈ st.sector_codes
  · exact addStubs_codes_mono _ _ hin
  · apply addStubs_codes_of_mem
    simp only [missing_sector_codes, List.mem_dedup, List.mem_append]
    refine Or.inr (List.mem_filterMap.mpr ⟨r, hr, ?_⟩)
    rw [if_pos hl, if_pos ⟨take_ne_nil_of_three_le hl, hin⟩]

theorem stub_pass_covers_system {st : LoaderState} {r : Rec} (hr : r ∈ st.systems)
    (hl : 3 ≤ r.location.length) :
    r.location.take 3 ∈ (create_stub_sectors st).sector_codes := by
  by_cases hin : r.location.take 3 ∈ st.sector_codes
  · exact addStubs_codes_mono _ _ hin
  · apply addStubs_codes_of_mem
    simp only [missing_sector_codes, List.mem_dedup, List.mem_append]
    refine Or.inl (Or.inr (List.mem_filterMap.mpr ⟨r, hr, ?_⟩))
    rw [if_pos hl, if_pos ⟨take_ne_nil_of_three_le hl, hin⟩]

theorem stub_pass_covers_planet {st : LoaderState} {r : Rec} (hr : r ∈ st.planets)
    (hl : 3 ≤ r.location.length) (hne : planetSectorCode r.location ≠ []) :
    planetSectorCode r.location ∈ (create_stub_sectors st).sector_codes := by
  by_cases hin : planetSectorCode r.location ∈ st.sector_codes
  · exact addStubs_codes_mono _ _ hin
  · apply addStubs_codes_of_mem
    simp only [missing_sector_codes, List.mem_dedup, List.mem_append]
    refine Or.inl (Or.inl (List.mem_filterMap.mpr ⟨r, hr, ?_⟩))
    rw [if_pos hl, if_pos ⟨hne, hin⟩]

theorem load_true_codes_super {db : Database} {a : Str}
    (h : a ∈ (create_stub_sectors (initState db)).sector_codes) :
    a ∈ (DataLoader.load true db).sector_codes := by
  unfold DataLoader.load
  simp only [if_pos]
  split
  · exact h
  · exact create_specific_codes_mono h

/-- C1 counterexample: a store holding the single system "ABC1234"
(length 7) and no subsectors — the stub pass synthesizes only sector
records, so after load() the length-6 prefix "ABC123" is the location
of no subsector record, violating the claimed subsector-level
containment. -/
theorem subsector_containment_fails_cex :
    (str "ABC1234").length = 7 ∧
    (∃ r ∈ (DataLoader.load true { systems := [{ id := 1, location := str "ABC1234" }] }).systems,
      r.location = str "ABC1234") ∧
    ¬(∃ r ∈ (DataLoader.load true { systems := [{ id := 1, location := str "ABC1234" }] }).subsectors,
      r.location = (str "ABC1234").take 6) := by decide

/-- C1 as amended: stub synthesis repairs only the sector level.
After a successful load(), every subsector or system whose location
has length at least 3 has its length-3 prefix as the location of some
sector record, and every planet likewise for its derived sector code
(the first '/'-split part when a slash is present, else the length-3
prefix, when that derived code is non-empty).  No containment is
established at the subsector or system level. -/
theorem sector_prefix_containment (db : Database) (r : Rec) :
    ((r ∈ (DataLoader.load true db).subsectors ∨ r ∈ (DataLoader.load true db).systems) →
      3 ≤ r.location.length →
      ∃ s ∈ (DataLoader.load true db).sectors, s.location = r.location.take 3) ∧
    (r ∈ (DataLoader.load true db).planets → 3 ≤ r.location.length →
      planetSectorCode r.location ≠ [] →
      ∃ s ∈ (DataLoader.load true db).sectors, s.location = planetSectorCode r.location) := by
  obtain ⟨hsub, hsys, hpl⟩ := load_true_collections db
  constructor
  · rintro (hr | hr) hl
    · rw [hsub] at hr
      exact load_true_sound db _
        (load_true_codes_super (@stub_pass_covers_subsector (initState db) r hr hl))
    · rw [hsys] at hr
      exact load_true_sound db _
        (load_true_codes_super (@stub_pass_covers_system (initState db) r hr hl))
  · intro hr hl hne
    rw [hpl] at hr
    exact load_true_sound db _
      (load_true_codes_super (@stub_pass_covers_planet (initState db) r hr hl hne))

/-- Witness for C1 as amended: a store with one subsector "XYZ123" and
one planet "PQR/1/2" — after load(), sector records with locations
"XYZ" and "PQR" exist. -/
theorem sector_prefix_containment_witness :
    (∃ s ∈ (DataLoader.load true { subsectors := [{ id := 1, location := str "XYZ123" }], planets := [{ id := 2, location := str "PQR/1/2" }] }).sectors,
      s.location = (str "XYZ123").take 3) ∧
    (∃ s ∈ (DataLoader.load true { subsectors := [{ id := 1, location := str "XYZ123" }], planets := [{ id := 2, location := str "PQR/1/2" }] }).sectors,
      s.location = planetSectorCode (str "PQR/1/2")) :=
  ⟨(sector_prefix_containment { subsectors := [{ id := 1, location := str "XYZ123" }], planets := [{ id := 2, location := str "PQR/1/2" }] }
      { id := 1, location := str "XYZ123" }).1 (Or.inl (by decide)) (by decide),
   (sector_prefix_containment { subsectors := [{ id := 1, location := str "XYZ123" }], planets := [{ id := 2, location := str "PQR/1/2" }] }
      { id := 2, location := str "PQR/1/2" }).2 (by decide) (by decide) (by decide)⟩

theorem foldl_max_init_le (x : Int) (xs : List Int) : x ≤ xs.foldl max x := by
  induction xs generalizing x with
  | nil => exact le_refl x
  | cons y ys ih => exact le_trans (le_max_left x y) (ih (max x y))

theorem mem_le_foldl_max {a : Int} (x : Int) (xs : List Int) (h : a ∈ xs) :
    a ≤ xs.foldl max x := by
  induction xs generalizing x with
  | nil => cases h
  | cons y ys ih =>
    rcases List.mem_cons.mp h with rfl | h'
    · exact le_trans (le_max_right x a) (foldl_max_init_le _ ys)
    · exact ih (max x y) h'

theorem le_maxIdDefaultZero {r : Rec} {sectors : List Rec} (h : r ∈ sectors) :
    r.id ≤ maxIdDefaultZero sectors := by
  unfold maxIdDefaultZero
  rcases hm : sectors.map Rec.id with _ | ⟨x, xs⟩
  · rcases sectors with _ | ⟨s, ss⟩
    · cases h
    · simp at hm
  · have hmem : r.id ∈ sectors.map Rec.id := List.mem_map_of_mem _ h
    rw [hm] at hmem
    rcases List.mem_cons.mp hmem with heq | hmem'
    · rw [heq]
      exact foldl_max_init_le x xs
    · exact mem_le_foldl_max x xs hmem'

theorem stubsList_ids (l : List Str) (n : Int) :
    (stubsList l n).map Rec.id = (List.range l.length).map fun (i : Nat) => n + (i : Int) := by
  induction l generalizing n with
  | nil => simp [stubsList]
  | cons c cs ih =>
    simp only [stubsList, List.map_cons, List.length_cons, List.range_succ_eq_map,
      List.map_map, mkStub]
    rw [ih]
    congr 1
    · simp
    · apply List.map_congr_left
      intro a _
      simp only [Function.comp_apply]
      push_cast
      ring

/-- C4: within one load, the ids of the synthesized stub sectors are
exactly max-existing-id + 1, + 2, …, in order of assignment — hence
strictly increasing, pairwise distinct, larger than every pre-existing
sector id, and the first one is max + 1; and a sector actually created
by the forced _create_specific_sector call likewise receives
max-so-far + 1, larger than every id then present. -/
theorem stub_sector_ids_unique (db : Database) :
    (((create_stub_sectors (initState db)).sectors.drop (initState db).sectors.length).map Rec.id
        = (List.range (missing_sector_codes (initState db)).length).map
            (fun (i : Nat) => maxIdDefaultZero (initState db).sectors + 1 + (i : Int))) ∧
    List.Pairwise (· < ·)
      (((create_stub_sectors (initState db)).sectors.drop (initState db).sectors.length).map Rec.id) ∧
    (∀ r ∈ (initState db).sectors,
      ∀ i ∈ ((create_stub_sectors (initState db)).sectors.drop (initState db).sectors.length).map Rec.id,
      r.id < i) ∧
    (∀ (st : LoaderState) (code : Str), code ∉ st.sector_codes →
      ((create_specific_sector st code).sectors.drop st.sectors.length).map Rec.id
          = [maxIdDefaultZero st.sectors + 1] ∧
      ∀ r ∈ st.sectors, r.id < maxIdDefaultZero st.sectors + 1) := by
  have hsec : (create_stub_sectors (initState db)).sectors
      = (initState db).sectors ++ stubsList (missing_sector_codes (initState db))
          (maxIdDefaultZero (initState db).sectors + 1) := by
    unfold create_stub_sectors
    exact addStubs_sectors _ _ _
  have hids : ((create_stub_sectors (initState db)).sectors.drop (initState db).sectors.length).map Rec.id
      = (List.range (missing_sector_codes (initState db)).length).map
          (fun (i : Nat) => maxIdDefaultZero (initState db).sectors + 1 + (i : Int)) := by
    rw [hsec, List.drop_left, stubsList_ids]
  refine ⟨hids, ?_, ?_, ?_⟩
  · rw [hids]
    refine (List.pairwise_map).mpr ?_
    exact (List.pairwise_lt_range _).imp fun h => by omega
  · intro r hr i hi
    rw [hids] at hi
    obtain ⟨j, _, rfl⟩ := List.mem_map.mp hi
    have := le_maxIdDefaultZero hr
    omega
  · intro st code hnc
    unfold create_specific_sector
    rw [if_neg hnc]
    refine ⟨by rw [List.drop_left]; rfl, ?_⟩
    intro r hr
    have := le_maxIdDefaultZero hr
    omega

/-- Witness for C4: a store with one real sector (id 5) and one planet
referencing the missing sector "ABC" — the single stub gets id 6 = 5 + 1,
greater than the existing id 5; and forcing a sector into a state whose
only sector has id 3 appends exactly one record with id 4. -/
theorem stub_sector_ids_unique_witness :
    ((create_stub_sectors (initState { sectors := [{ id := 5, location := str "QQQ" }], planets := [{ id := 9, location := str "ABC12345" }] })).sectors.drop 1).map Rec.id = [(6 : Int)] ∧
    (5 : Int) < 6 ∧
    ((create_specific_sector { sectors := [{ id := 3, location := str "AAA" }], sector_codes := [str "AAA"] } (str "ANM")).sectors.drop 1).map Rec.id = [(4 : Int)] := by
  have h := stub_sector_ids_unique { sectors := [{ id := 5, location := str "QQQ" }], planets := [{ id := 9, location := str "ABC12345" }] }
  refine ⟨?_, ?_, ?_⟩
  · have h1 := h.1
    simpa using h1
  · refine h.2.2.1 { id := 5, location := str "QQQ" } (by decide) 6 ?_
    have h1 := h.1
    rw [h1]
    decide
  · have h4 := h.2.2.2 { sectors := [{ id := 3, location := str "AAA" }], sector_codes := [str "AAA"] } (str "ANM") (by decide)
    simpa using h4.1

/-! ### Claim theorems: ownership cache -/

/-- C2 counterexample: a marked planet whose code "MMM222" has length
6 — the source nests its length checks (the `>= 6` and `>= 3` tests
sit inside the `>= 7` branch), so no prefix at all is added: the cache
holds the planet code but not its length-3 sector prefix "MMM",
refuting both the claimed independent length thresholds and
monotonicity below length 7. -/
theorem wyvern_prefix_not_added_cex :
    str "MMM222" ∈ build_wyvern_locations_cache [{ id := 1, location := str "MMM222", owner := str "Wyvern Supremacy" }] ∧
    str "MMM" ∉ build_wyvern_locations_cache [{ id := 1, location := str "MMM222", owner := str "Wyvern Supremacy" }] := by
  decide

/-- C2 as amended: for every planet whose owner contains the marker
case-insensitively and whose location is non-empty, the cache build
adds the location itself, and — only when the code length is at least
7, the three nested length tests being subsumed by the outer one — its
length-7, length-6 and length-3 prefixes; monotonicity along the
hierarchy therefore holds for planet codes of length at least 7. -/
theorem wyvern_cache_membership (planets : List Rec) (p : Rec) (hp : p ∈ planets)
    (ho : p.owner ≠ []) (hm : containsMarker p.owner = true) (hl : p.location ≠ []) :
    p.location ∈ build_wyvern_locations_cache planets ∧
    (7 ≤ p.location.length →
      p.location.take 7 ∈ build_wyvern_locations_cache planets ∧
      p.location.take 6 ∈ build_wyvern_locations_cache planets ∧
      p.location.take 3 ∈ build_wyvern_locations_cache planets) := by
  have hmem : ∀ x ∈ wyvernCodesOfPlanet p, x ∈ build_wyvern_locations_cache planets := by
    intro x hx
    unfold build_wyvern_locations_cache
    exact List.mem_flatMap.mpr ⟨p, hp, hx⟩
  have hcond : p.owner ≠ [] ∧ containsMarker p.owner ∧ p.location ≠ [] := ⟨ho, hm, hl⟩
  constructor
  · apply hmem
    unfold wyvernCodesOfPlanet
    rw [if_pos hcond]
    simp
  · intro h7
    have h6 : 6 ≤ p.location.length := by omega
    have h3 : 3 ≤ p.location.length := by omega
    refine ⟨hmem _ ?_, hmem _ ?_, hmem _ ?_⟩ <;>
      · unfold wyvernCodesOfPlanet
        rw [if_pos hcond, if_pos h7, if_pos h6, if_pos h3]
        simp

/-- Witness for C2 as amended: the single marked planet "MMM2221"
(length 7) puts its own code and all three prefixes in the cache. -/
theorem wyvern_cache_membership_witness :
    str "MMM2221" ∈ build_wyvern_locations_cache [{ id := 1, location := str "MMM2221", owner := str "Wyvern Supremacy Fleet Command" }] ∧
    (str "MMM2221").take 7 ∈ build_wyvern_locations_cache [{ id := 1, location := str "MMM2221", owner := str "Wyvern Supremacy Fleet Command" }] ∧
    (str "MMM2221").take 6 ∈ build_wyvern_locations_cache [{ id := 1, location := str "MMM2221", owner := str "Wyvern Supremacy Fleet Command" }] ∧
    (str "MMM2221").take 3 ∈ build_wyvern_locations_cache [{ id := 1, location := str "MMM2221", owner := str "Wyvern Supremacy Fleet Command" }] := by
  have h := wyvern_cache_membership
    [{ id := 1, location := str "MMM2221", owner := str "Wyvern Supremacy Fleet Command" }]
    { id := 1, location := str "MMM2221", owner := str "Wyvern Supremacy Fleet Command" }
    (by decide) (by decide) (by decide) (by decide)
  obtain ⟨h0, h7⟩ := h
  obtain ⟨ha, hb, hc⟩ := h7 (by decide)
  exact ⟨h0, ha, hb, hc⟩

/-- C3 counterexample: the '/'-delimited planet "MMM/2/2/1"
contributes parts[0] ++ parts[1] = "MMM2" as its subsector cache
entry, not the fixed-width subsector code "MMM222"; only the
fixed-width planet "MMM2221" puts "MMM222" in the cache, so the two
encodings do not resolve to the same subsector membership. -/
theorem slash_subsector_mismatch_cex :
    str "MMM222" ∈ build_wyvern_locations_cache [{ id := 1, location := str "MMM2221", owner := str "Wyvern Supremacy" }] ∧
    str "MMM222" ∉ build_wyvern_locations_cache [{ id := 1, location := str "MMM/2/2/1", owner := str "Wyvern Supremacy" }] := by
  decide

/-- C3 as amended: both encodings do resolve to the same derived
sector entry "MMM", but the '/'-form's derived subsector entry is
"MMM2" (sector part ++ first subsector part) while the fixed-width
form's is "MMM222"; the latter never enters the cache for the
'/'-form planet. -/
theorem slash_and_fixed_sector_agree :
    str "MMM" ∈ build_wyvern_locations_cache [{ id := 1, location := str "MMM/2/2/1", owner := str "Wyvern Supremacy" }] ∧
    str "MMM" ∈ build_wyvern_locations_cache [{ id := 1, location := str "MMM2221", owner := str "Wyvern Supremacy" }] ∧
    str "MMM2" ∈ build_wyvern_locations_cache [{ id := 1, location := str "MMM/2/2/1", owner := str "Wyvern Supremacy" }] ∧
    str "MMM222" ∈ build_wyvern_locations_cache [{ id := 1, location := str "MMM2221", owner := str "Wyvern Supremacy" }] ∧
    str "MMM222" ∉ build_wyvern_locations_cache [{ id := 1, location := str "MMM/2/2/1", owner := str "Wyvern Supremacy" }] := by
  decide

end Takamo
